import Mathlib

/-!
Verification of the `EvalSetting` options builder
(`src/config/eval_setting.py`).

The module is embedded shallowly:

* Python values that flow through the class are modelled by `Val`
  (`None`, booleans, ints, floats as exact rationals, strings, lists).
* Python dictionaries are modelled as insertion-ordered association
  lists (`Dict`); `dictSet` mirrors `d[k] = v` (overwrite in place,
  append at the end for a fresh key) and `dictUpdate` mirrors
  `d.update(kwargs)`.
* Each method of the class becomes a function from the record state to
  a `SetterResult`: the `Option PyError` component is `some e` exactly
  when the Python call raises, and the `EvalSetting` component is the
  state of the object after the call, whether or not it raised.
  Statement order of the source is preserved, so "validate before
  mutating" is a provable property, not an assumption.
* `ValueError` messages are reproduced verbatim, except that
  `list(legal_strategy)` iterates a Python `set`, whose order is an
  implementation detail; the model renders the set in the literal
  order in which the source writes it.
-/

namespace EvalSettingModel

/-- A Python value as used by this module.  Floats are modelled as exact
rationals: the module never does float arithmetic, it only stores and
compares values. -/
inductive Val where
  | none
  | bool (b : Bool)
  | int (n : Int)
  | float (q : Rat)
  | str (s : String)
  | list (l : List Val)

/-- A Python dict: an insertion-ordered association list. -/
abbrev Dict := List (String × Val)

/-- `d[k] = v`: overwrite the first binding of `k` in place, otherwise
append a new binding at the end (Python dicts preserve insertion order). -/
def dictSet : Dict → String → Val → Dict
  | [], k, v => [(k, v)]
  | (k', v') :: rest, k, v =>
    if k' = k then (k, v) :: rest else (k', v') :: dictSet rest k v

/-- `d.update(kwargs)`: fold `dictSet` over the keyword pairs in order. -/
def dictUpdate (d : Dict) (kwargs : Dict) : Dict :=
  kwargs.foldl (fun acc p => dictSet acc p.1 p.2) d

/-- `d[k]` as a lookup that reports absence (used to model the
`KeyError` a Python subscript raises when the key is missing). -/
def dictLookup : Dict → String → Option Val
  | [], _ => Option.none
  | (k', v') :: rest, k => if k' = k then some v' else dictLookup rest k

/-- The keys of a dict, in order. -/
def dictKeys (d : Dict) : List String := d.map Prod.fst

/-- The exceptions this module can raise. -/
inductive PyError where
  | valueError (msg : String)
  | keyError (key : String)
  | typeError (msg : String)
deriving DecidableEq

/-- The configuration source handed to the constructor: key lookup that
yields `Option.none` for an absent/null entry. -/
structure Config where
  group_field : Option Val := Option.none
  ordering_args : Option Dict := Option.none
  split_args : Option Dict := Option.none
  neg_sample_args : Option Dict := Option.none
  USER_ID_FIELD : Option Val := Option.none

/-- The record state of an `EvalSetting` object. -/
structure EvalSetting where
  config : Config
  group_field : Option Val
  ordering_args : Option Dict
  split_args : Option Dict
  neg_sample_args : Option Dict

/-- One step of the `__init__` loop: `if config[args] is not None:
setattr(self, args, config[args])`, starting from the default. -/
def copyIfPresent (dflt : Option α) (v : Option α) : Option α :=
  match v with
  | Option.some x => Option.some x
  | Option.none => dflt

/-- `EvalSetting.__init__`: set the four attributes to `None`, then copy
every non-`None` entry of the configuration source verbatim (no
validation). -/
def EvalSetting.init (config : Config) : EvalSetting :=
  { config := config
    group_field := copyIfPresent Option.none config.group_field
    ordering_args := copyIfPresent Option.none config.ordering_args
    split_args := copyIfPresent Option.none config.split_args
    neg_sample_args := copyIfPresent Option.none config.neg_sample_args }

/-- An empty configuration source: every key absent. -/
def configEmpty : Config := {}

/-- A freshly constructed record with no specs set. -/
def esEmpty : EvalSetting := EvalSetting.init configEmpty

/-- A record whose specs already hold extra fields beyond `strategy`
(used to exercise the full-replace semantics of the setters). -/
def esRich : EvalSetting :=
  { config := configEmpty
    group_field := some (Val.str "user_id")
    ordering_args := some [("strategy", Val.str "by"),
      ("field", Val.str "timestamp"), ("ascending", Val.bool true)]
    split_args := some [("strategy", Val.str "by_ratio"),
      ("ratios", Val.list [Val.int 1])]
    neg_sample_args := some [("strategy", Val.str "by"), ("by", Val.int 5)] }

/-- Result of a method call: the raised exception, if any, and the state
of the object after the call. -/
structure SetterResult where
  err : Option PyError
  st : EvalSetting

/-- `legal_strategy` of `set_ordering`. -/
def orderingLegal : List String := ["none", "shuffle", "by"]

/-- `list(legal_strategy)` as rendered into the ordering error message.
The source iterates a Python `set`; the model uses the written order. -/
def orderingLegalRepr : String := "[\x27none\x27, \x27shuffle\x27, \x27by\x27]"

/-- `set_ordering(strategy, **kwargs)`: reject a strategy outside the
legal set before touching the state, otherwise replace the ordering
spec wholesale with `{strategy: strategy}` updated by the kwargs. -/
def set_ordering (es : EvalSetting) (strategy : String) (kwargs : Dict) :
    SetterResult :=
  if strategy ∉ orderingLegal then
    ⟨some (PyError.valueError
        ("Ordering Strategy [" ++ strategy ++ "] should in " ++ orderingLegalRepr)),
      es⟩
  else
    ⟨Option.none,
      { es with
          ordering_args := some (dictUpdate [("strategy", Val.str strategy)] kwargs) }⟩

/-- `shuffle()`. -/
def shuffle (es : EvalSetting) : SetterResult := set_ordering es "shuffle" []

/-- Python `len` on the values this module passes to it. -/
def pyLen : Val → Option Nat
  | Val.str s => some s.length
  | Val.list l => some l.length
  | _ => Option.none

/-- `sort_by(field, ascending=None)`: when `ascending` is not given it
defaults to `[True] * len(field)`, collapsed to the scalar `True` when
that list has length one; then delegates to `set_ordering`. -/
def sort_by (es : EvalSetting) (field : Val) (ascending : Option Val) :
    SetterResult :=
  match ascending with
  | Option.some a => set_ordering es "by" [("field", field), ("ascending", a)]
  | Option.none =>
    match pyLen field with
    | Option.some n =>
      let a := if n = 1 then Val.bool true
               else Val.list (List.replicate n (Val.bool true))
      set_ordering es "by" [("field", field), ("ascending", a)]
    | Option.none =>
      ⟨some (PyError.typeError "object has no len()"), es⟩

/-- `group_by(field)`. -/
def group_by (es : EvalSetting) (field : Option Val) : SetterResult :=
  ⟨Option.none, { es with group_field := field }⟩

/-- `group_by_user()`: looks `USER_ID_FIELD` up in the configuration
source held by the object. -/
def group_by_user (es : EvalSetting) : SetterResult :=
  ⟨Option.none, { es with group_field := es.config.USER_ID_FIELD }⟩

/-- `legal_strategy` of `set_splitting`. -/
def splittingLegal : List String := ["none", "by_ratio", "by_value", "loo"]

/-- `list(legal_strategy)` as rendered into the splitting error message. -/
def splittingLegalRepr : String :=
  "[\x27none\x27, \x27by_ratio\x27, \x27by_value\x27, \x27loo\x27]"

/-- The source guards leave-one-out with `self.group_by is None`.
`group_by` is a method of the class, so the attribute lookup yields a
bound method object, which is never `None`: the test is the constant
`False`, whatever the record state (the intended test was presumably
`self.group_field is None`). -/
def groupByMethodIsNone (_es : EvalSetting) : Bool := false

/-- `set_splitting(strategy, **kwargs)`: reject a strategy outside the
legal set, then apply the (never-firing) leave-one-out guard, then
replace the split spec wholesale. -/
def set_splitting (es : EvalSetting) (strategy : String) (kwargs : Dict) :
    SetterResult :=
  if strategy ∉ splittingLegal then
    ⟨some (PyError.valueError
        ("Split Strategy [" ++ strategy ++ "] should in " ++ splittingLegalRepr)),
      es⟩
  else if strategy = "loo" ∧ groupByMethodIsNone es = true then
    ⟨some (PyError.valueError "Leave-One-Out request group firstly"), es⟩
  else
    ⟨Option.none,
      { es with
          split_args := some (dictUpdate [("strategy", Val.str strategy)] kwargs) }⟩

/-- `leave_one_out()`. -/
def leave_one_out (es : EvalSetting) : SetterResult := set_splitting es "loo" []

mutual

/-- Python `repr` of a value.  Floats are shown via the `Rat` notation;
no claim observes a rendered float. -/
def reprVal : Val → String
  | Val.none => "None"
  | Val.bool b => if b then "True" else "False"
  | Val.int n => toString n
  | Val.float q => toString q
  | Val.str s => "\x27" ++ s ++ "\x27"
  | Val.list l => "[" ++ reprValList l ++ "]"

/-- Comma-separated `repr`s of the elements of a list. -/
def reprValList : List Val → String
  | [] => ""
  | [v] => reprVal v
  | v :: rest => reprVal v ++ ", " ++ reprValList rest

end

/-- Python `str(v)`. -/
def strVal : Val → String
  | Val.str s => s
  | v => reprVal v

/-- `split_by_ratio(ratios)`: raise unless `ratios` is a list, otherwise
delegate to `set_splitting` with strategy `by_ratio`. -/
def split_by_ratio (es : EvalSetting) (ratios : Val) : SetterResult :=
  match ratios with
  | Val.list l => set_splitting es "by_ratio" [("ratios", Val.list l)]
  | r => ⟨some (PyError.valueError ("ratios [" ++ strVal r ++ "] should be list")), es⟩

/-- The `values` argument of `split_by_value`: a number or a list of
numbers (per the source docstring), numbers modelled as integers. -/
inductive ValuesArg where
  | scalar (n : Int)
  | listOf (ns : List Int)

/-- `if not isinstance(values, list): values = [values]`. -/
def valuesList : ValuesArg → List Int
  | ValuesArg.scalar n => [n]
  | ValuesArg.listOf ns => ns

/-- `values.sort(reverse=(not ascending))`: sort ascending when
`ascending` holds, descending otherwise. -/
def pySortInts (ascending : Bool) (ns : List Int) : List Int :=
  if ascending then List.insertionSort (fun a b => a ≤ b) ns
  else List.insertionSort (fun a b => a ≥ b) ns

/-- `split_by_value(field, values, ascending=True)`: `field` must be a
string; a scalar `values` is wrapped in a list; the list is sorted per
`ascending`; then delegate to `set_splitting` with strategy `by_value`
(the source validates `field` but does not store it). -/
def split_by_value (es : EvalSetting) (field : Val) (values : ValuesArg)
    (ascending : Bool) : SetterResult :=
  match field with
  | Val.str _ =>
    set_splitting es "by_value"
      [("values", Val.list ((pySortInts ascending (valuesList values)).map Val.int)),
        ("ascending", Val.bool ascending)]
  | f => ⟨some (PyError.valueError ("field [" ++ strVal f ++ "] should be str")), es⟩

/-- Discriminates `isinstance(ratios, list)`. -/
def isListVal : Val → Bool
  | Val.list _ => true
  | _ => false

/-- Well-formedness used by the rendering claim: a present spec dict has
a `strategy` entry (every spec the setters store does; a config-injected
dict without one makes `__str__` raise `KeyError`). -/
def hasStrategyKey : Option Dict → Prop
  | Option.none => True
  | some d => (dictLookup d "strategy").isSome = true

/-- `legal_strategy` of `set_neg_sampling`. -/
def negSamplingLegal : List String := ["none", "to", "by"]

/-- `list(legal_strategy)` as rendered into the negative-sampling error
message. -/
def negSamplingLegalRepr : String := "[\x27none\x27, \x27to\x27, \x27by\x27]"

/-- `set_neg_sampling(strategy, **kwargs)`. -/
def set_neg_sampling (es : EvalSetting) (strategy : String) (kwargs : Dict) :
    SetterResult :=
  if strategy ∉ negSamplingLegal then
    ⟨some (PyError.valueError
        ("Negative Sampling Strategy [" ++ strategy ++ "] should in "
          ++ negSamplingLegalRepr)),
      es⟩
  else
    ⟨Option.none,
      { es with
          neg_sample_args := some (dictUpdate [("strategy", Val.str strategy)] kwargs) }⟩

/-- `neg_sample_to(to)`. -/
def neg_sample_to (es : EvalSetting) (t : Int) : SetterResult :=
  set_neg_sampling es "to" [("to", Val.int t)]

/-- `full_sort()`: defined, as in the source, as `neg_sample_to(-1)`. -/
def full_sort (es : EvalSetting) : SetterResult := neg_sample_to es (-1)

/-- `neg_sample_by(by)`. -/
def neg_sample_by (es : EvalSetting) (b : Int) : SetterResult :=
  set_neg_sampling es "by" [("by", Val.int b)]

/-- Python `str(d)` of a dict: `repr` of keys and values. -/
def reprDict (d : Dict) : String :=
  "\x7b" ++ String.intercalate ", "
    (d.map (fun p => "\x27" ++ p.1 ++ "\x27: " ++ reprVal p.2)) ++ "\x7d"

/-- The grouping line of `__str__`: `'\tGroup by {}\n'.format(...)` when
the grouping field is set, otherwise the "No Grouping" line. -/
def groupingLine (es : EvalSetting) : String :=
  match es.group_field with
  | some g => "\tGroup by " ++ strVal g ++ "\n"
  | Option.none => "\tNo Grouping\n"

/-- One spec line of `__str__`: absent spec or strategy `'none'` renders
the "No ..." line; otherwise the dict is formatted.  A present spec
without a `'strategy'` key makes the Python subscript raise `KeyError`. -/
def concernLine (label : String) (noLine : String) (args : Option Dict) :
    Except PyError String :=
  match args with
  | Option.none => Except.ok noLine
  | some d =>
    match dictLookup d "strategy" with
    | Option.none => Except.error (PyError.keyError "strategy")
    | some (Val.str s) =>
      if s = "none" then Except.ok noLine
      else Except.ok ("\t" ++ label ++ reprDict d ++ "\n")
    | some _ => Except.ok ("\t" ++ label ++ reprDict d ++ "\n")

/-- `__str__`: header plus the four concern lines in fixed order
(grouping, ordering, splitting, negative sampling). -/
def pyStr (es : EvalSetting) : Except PyError String := do
  let l2 ← concernLine "Ordering: " "\tNo Ordering\n" es.ordering_args
  let l3 ← concernLine "Splitting: " "\tNo Splitting\n" es.split_args
  let l4 ← concernLine "Negative Sampling: " "\tNo Negative Sampling\n"
    es.neg_sample_args
  Except.ok ("Evaluation Setting:\n" ++ groupingLine es ++ l2 ++ l3 ++ l4)

/-! ### Helper lemmas -/

lemma copyIfPresent_none (v : Option α) :
    copyIfPresent (α := α) Option.none v = v := by
  cases v <;> rfl

lemma mem_dictKeys_dictSet (d : Dict) (k a : String) (v : Val) :
    a ∈ dictKeys (dictSet d k v) ↔ a ∈ dictKeys d ∨ a = k := by
  induction d with
  | nil => simp [dictSet, dictKeys]
  | cons p rest ih =>
    obtain ⟨k', v'⟩ := p
    by_cases hk : k' = k
    · subst hk
      simp [dictSet, dictKeys]
      tauto
    · simp [dictSet, hk, dictKeys] at ih ⊢
      tauto

lemma mem_dictKeys_dictUpdate (kwargs d : Dict) (a : String) :
    a ∈ dictKeys (dictUpdate d kwargs) ↔ a ∈ dictKeys d ∨ a ∈ dictKeys kwargs := by
  induction kwargs generalizing d with
  | nil => simp [dictUpdate, dictKeys]
  | cons p rest ih =>
    have step : dictUpdate d (p :: rest) = dictUpdate (dictSet d p.1 p.2) rest := rfl
    rw [step, ih, mem_dictKeys_dictSet]
    simp [dictKeys]
    tauto

/-! ### Claim theorems -/

/-- C1: for every record state, every concern, every strategy outside
that concern's legal set and any keyword arguments, the setter raises a
`ValueError` whose message carries the offending value and the rendered
legal set, and the whole record (in particular the previously stored
spec of that concern) is unchanged. -/
theorem invalid_strategy_rejected (es : EvalSetting) (kwargs : Dict)
    (s1 s2 s3 : String) (h1 : s1 ∉ orderingLegal) (h2 : s2 ∉ splittingLegal)
    (h3 : s3 ∉ negSamplingLegal) :
    set_ordering es s1 kwargs =
      ⟨some (PyError.valueError
          ("Ordering Strategy [" ++ s1 ++ "] should in " ++ orderingLegalRepr)), es⟩
    ∧ set_splitting es s2 kwargs =
      ⟨some (PyError.valueError
          ("Split Strategy [" ++ s2 ++ "] should in " ++ splittingLegalRepr)), es⟩
    ∧ set_neg_sampling es s3 kwargs =
      ⟨some (PyError.valueError
          ("Negative Sampling Strategy [" ++ s3 ++ "] should in "
            ++ negSamplingLegalRepr)), es⟩ := by
  refine ⟨?_, ?_, ?_⟩
  · rw [set_ordering, if_pos h1]
  · rw [set_splitting, if_pos h2]
  · rw [set_neg_sampling, if_pos h3]

/-- C1 witness: the strategy string `bogus` is legal for no concern, and
each setter rejects it on the fresh record. -/
theorem invalid_strategy_rejected_witness :
    ("bogus" ∉ orderingLegal ∧ "bogus" ∉ splittingLegal ∧ "bogus" ∉ negSamplingLegal)
    ∧ (set_ordering esEmpty "bogus" [("field", Val.str "timestamp")] =
        ⟨some (PyError.valueError
            ("Ordering Strategy [" ++ "bogus" ++ "] should in " ++ orderingLegalRepr)),
          esEmpty⟩
      ∧ set_splitting esEmpty "bogus" [("field", Val.str "timestamp")] =
        ⟨some (PyError.valueError
            ("Split Strategy [" ++ "bogus" ++ "] should in " ++ splittingLegalRepr)),
          esEmpty⟩
      ∧ set_neg_sampling esEmpty "bogus" [("field", Val.str "timestamp")] =
        ⟨some (PyError.valueError
            ("Negative Sampling Strategy [" ++ "bogus" ++ "] should in "
              ++ negSamplingLegalRepr)), esEmpty⟩) :=
  ⟨⟨by decide, by decide, by decide⟩,
    invalid_strategy_rejected esEmpty [("field", Val.str "timestamp")]
      "bogus" "bogus" "bogus" (by decide) (by decide) (by decide)⟩

/-- C5: for any prior state, a successful setter call stores exactly
`{strategy: s}` updated with the keyword arguments — the new spec is a
function of the call alone (the prior spec does not occur in it), and
its key set is exactly `strategy` plus the keyword keys. -/
theorem setter_full_replace (es : EvalSetting) (kwargs : Dict)
    (s1 s2 s3 : String) (h1 : s1 ∈ orderingLegal) (h2 : s2 ∈ splittingLegal)
    (h3 : s3 ∈ negSamplingLegal) :
    set_ordering es s1 kwargs =
      ⟨Option.none, { es with
          ordering_args := some (dictUpdate [("strategy", Val.str s1)] kwargs) }⟩
    ∧ set_splitting es s2 kwargs =
      ⟨Option.none, { es with
          split_args := some (dictUpdate [("strategy", Val.str s2)] kwargs) }⟩
    ∧ set_neg_sampling es s3 kwargs =
      ⟨Option.none, { es with
          neg_sample_args := some (dictUpdate [("strategy", Val.str s3)] kwargs) }⟩
    ∧ (dictKeys (dictUpdate [("strategy", Val.str s1)] kwargs)).toFinset =
        insert "strategy" (dictKeys kwargs).toFinset := by
  refine ⟨?_, ?_, ?_, ?_⟩
  · rw [set_ordering, if_neg (not_not_intro h1)]
  · rw [set_splitting, if_neg (not_not_intro h2),
      if_neg (fun hc => by simpa [groupByMethodIsNone] using hc.2)]
  · rw [set_neg_sampling, if_neg (not_not_intro h3)]
  · ext a
    simp only [List.mem_toFinset, Finset.mem_insert]
    rw [mem_dictKeys_dictUpdate]
    simp only [dictKeys, List.map_cons, List.map_nil, List.mem_singleton]

/-- C5 witness: a legal call on each concern with one extra keyword,
starting from a record whose ordering spec already holds other keys. -/
theorem setter_full_replace_witness :
    ("shuffle" ∈ orderingLegal ∧ "by_ratio" ∈ splittingLegal ∧ "to" ∈ negSamplingLegal)
    ∧ (set_ordering esRich "shuffle" [("extra", Val.int 1)] =
        ⟨Option.none, { esRich with
            ordering_args := some (dictUpdate [("strategy", Val.str "shuffle")]
                [("extra", Val.int 1)]) }⟩
      ∧ set_splitting esRich "by_ratio" [("extra", Val.int 1)] =
        ⟨Option.none, { esRich with
            split_args := some (dictUpdate [("strategy", Val.str "by_ratio")]
                [("extra", Val.int 1)]) }⟩
      ∧ set_neg_sampling esRich "to" [("extra", Val.int 1)] =
        ⟨Option.none, { esRich with
            neg_sample_args := some (dictUpdate [("strategy", Val.str "to")]
                [("extra", Val.int 1)]) }⟩
      ∧ (dictKeys (dictUpdate [("strategy", Val.str "shuffle")]
            [("extra", Val.int 1)])).toFinset =
          insert "strategy" (dictKeys [("extra", Val.int 1)]).toFinset) :=
  ⟨⟨by decide, by decide, by decide⟩,
    setter_full_replace esRich [("extra", Val.int 1)] "shuffle" "by_ratio" "to"
      (by decide) (by decide) (by decide)⟩

/-- C2 evidence: the fresh record has no grouping field, yet
`set_splitting` with strategy `loo` (and `leave_one_out`, which
delegates to it) succeeds and stores the spec instead of raising
`MissingGrouping` — the source guard tests `self.group_by is None`,
which is a bound method and never `None`, so it raises for no state. -/
theorem loo_guard_never_fires :
    esEmpty.group_field = Option.none
    ∧ set_splitting esEmpty "loo" [] =
        ⟨Option.none, { esEmpty with split_args := some [("strategy", Val.str "loo")] }⟩
    ∧ leave_one_out esEmpty = set_splitting esEmpty "loo" []
    ∧ ∀ (es : EvalSetting) (kwargs : Dict),
        (set_splitting es "loo" kwargs).err = Option.none :=
  ⟨rfl, rfl, rfl, fun _ _ => rfl⟩

/-- C7: `full_sort()` performs exactly `neg_sample_to(-1)`: from any
starting state both succeed, store the negative-sampling spec
`{strategy: to, to: -1}`, and change nothing else. -/
theorem full_sort_eq_neg_sample_to (es : EvalSetting) :
    full_sort es = neg_sample_to es (-1)
    ∧ neg_sample_to es (-1) =
        ⟨Option.none, { es with
            neg_sample_args := some [("strategy", Val.str "to"), ("to", Val.int (-1))] }⟩ :=
  ⟨rfl, rfl⟩

/-- C3: `sort_by(field)` on a list field with `ascending` not given
stores strategy `by`, the field, and an all-`True` ascending of the
field's length, collapsed to the scalar `True` exactly when the length
is one; in particular for `["a","b"]` and for `["a"]`. -/
theorem sort_by_default_ascending (es : EvalSetting) (l : List Val) :
    sort_by es (Val.list l) Option.none =
      ⟨Option.none, { es with
          ordering_args := some [("strategy", Val.str "by"), ("field", Val.list l),
            ("ascending", if l.length = 1 then Val.bool true
              else Val.list (List.replicate l.length (Val.bool true)))] }⟩
    ∧ sort_by esEmpty (Val.list [Val.str "a", Val.str "b"]) Option.none =
      ⟨Option.none, { esEmpty with
          ordering_args := some [("strategy", Val.str "by"),
            ("field", Val.list [Val.str "a", Val.str "b"]),
            ("ascending", Val.list [Val.bool true, Val.bool true])] }⟩
    ∧ sort_by esEmpty (Val.list [Val.str "a"]) Option.none =
      ⟨Option.none, { esEmpty with
          ordering_args := some [("strategy", Val.str "by"), ("field", Val.list [Val.str "a"]),
            ("ascending", Val.bool true)] }⟩ :=
  ⟨rfl, rfl, rfl⟩

/-- C10: `sort_by` handed a plain string field with `ascending` not
given treats the string as a sequence of characters: the default
ascending is an all-`True` list of the string's length, collapsed to the
scalar `True` only for a one-character string; `sort_by("timestamp")`
stores a nine-element list, not the scalar. -/
theorem sort_by_string_field (es : EvalSetting) (s : String) :
    sort_by es (Val.str s) Option.none =
      ⟨Option.none, { es with
          ordering_args := some [("strategy", Val.str "by"), ("field", Val.str s),
            ("ascending", if s.length = 1 then Val.bool true
              else Val.list (List.replicate s.length (Val.bool true)))] }⟩
    ∧ sort_by esEmpty (Val.str "timestamp") Option.none =
      ⟨Option.none, { esEmpty with
          ordering_args := some [("strategy", Val.str "by"), ("field", Val.str "timestamp"),
            ("ascending", Val.list (List.replicate 9 (Val.bool true)))] }⟩ :=
  ⟨rfl, rfl⟩

/-- C6: construction copies each of the four keys of the configuration
source verbatim into the corresponding attribute when present and leaves
it absent otherwise, with no validation; a source supplying only
`group_field` yields a record with grouping set and the three specs
absent. -/
theorem init_copies_config (c : Config) :
    EvalSetting.init c =
      { config := c, group_field := c.group_field,
        ordering_args := c.ordering_args, split_args := c.split_args,
        neg_sample_args := c.neg_sample_args }
    ∧ EvalSetting.init { configEmpty with group_field := some (Val.str "user_id") } =
      { config := { configEmpty with group_field := some (Val.str "user_id") },
        group_field := some (Val.str "user_id"), ordering_args := Option.none,
        split_args := Option.none, neg_sample_args := Option.none } := by
  constructor
  · simp [EvalSetting.init, copyIfPresent_none]
  · rfl

/-- C9: `split_by_ratio` raises a `ValueError` naming the offending
value when `ratios` is not a list and leaves the record unchanged; for
any list it succeeds and stores strategy `by_ratio` with the given
ratios, with no constraint on their sum. -/
theorem split_by_ratio_spec (es : EvalSetting) (r : Val) (l : List Val)
    (hr : isListVal r = false) :
    split_by_ratio es r =
      ⟨some (PyError.valueError ("ratios [" ++ strVal r ++ "] should be list")), es⟩
    ∧ split_by_ratio es (Val.list l) =
      ⟨Option.none, { es with
          split_args := some [("strategy", Val.str "by_ratio"),
            ("ratios", Val.list l)] }⟩ := by
  constructor
  · cases r with
    | list l' => simp [isListVal] at hr
    | none => rfl
    | bool b => rfl
    | int n => rfl
    | float q => rfl
    | str s => rfl
  · rfl

/-- C9 witness: the scalar `0.8` is not a list and is rejected; the
ratios `[0.8, 0.1, 0.1]` (which sum to 1 only incidentally) are stored. -/
theorem split_by_ratio_spec_witness :
    isListVal (Val.float (8 / 10)) = false
    ∧ (split_by_ratio esEmpty (Val.float (8 / 10)) =
        ⟨some (PyError.valueError
            ("ratios [" ++ strVal (Val.float (8 / 10)) ++ "] should be list")),
          esEmpty⟩
      ∧ split_by_ratio esEmpty
          (Val.list [Val.float (8 / 10), Val.float (1 / 10), Val.float (1 / 10)]) =
        ⟨Option.none, { esEmpty with
            split_args := some [("strategy", Val.str "by_ratio"),
              ("ratios", Val.list [Val.float (8 / 10), Val.float (1 / 10),
                Val.float (1 / 10)])] }⟩) :=
  ⟨rfl, split_by_ratio_spec esEmpty (Val.float (8 / 10))
    [Val.float (8 / 10), Val.float (1 / 10), Val.float (1 / 10)] rfl⟩

/-- C4: `split_by_value` on a string field stores strategy `by_value`,
the values (a scalar is first wrapped in a singleton list) sorted per
the `ascending` flag, and the flag itself; the stored list is a
permutation of the input, sorted ascending when the flag is true and
descending otherwise; in particular `[7,6]` with `ascending=False` stays
`[7,6]` and the scalar `7` becomes `[7]`. -/
theorem split_by_value_sorted (es : EvalSetting) (f : String)
    (values : ValuesArg) (ascending : Bool) :
    split_by_value es (Val.str f) values ascending =
      ⟨Option.none, { es with
          split_args := some [("strategy", Val.str "by_value"),
            ("values", Val.list ((pySortInts ascending (valuesList values)).map Val.int)),
            ("ascending", Val.bool ascending)] }⟩
    ∧ List.Perm (pySortInts ascending (valuesList values)) (valuesList values)
    ∧ List.Sorted (fun a b : Int => if ascending then a ≤ b else a ≥ b)
        (pySortInts ascending (valuesList values))
    ∧ split_by_value esEmpty (Val.str "month") (ValuesArg.listOf [7, 6]) false =
      ⟨Option.none, { esEmpty with
          split_args := some [("strategy", Val.str "by_value"),
            ("values", Val.list [Val.int 7, Val.int 6]),
            ("ascending", Val.bool false)] }⟩
    ∧ split_by_value esEmpty (Val.str "month") (ValuesArg.scalar 7) true =
      ⟨Option.none, { esEmpty with
          split_args := some [("strategy", Val.str "by_value"),
            ("values", Val.list [Val.int 7]),
            ("ascending", Val.bool true)] }⟩ := by
  refine ⟨rfl, ?_, ?_, rfl, rfl⟩
  · cases ascending <;> simp only [pySortInts, if_true, if_false] <;>
      exact List.perm_insertionSort _ _
  · cases ascending
    · simpa only [pySortInts, if_false, Bool.false_eq_true] using
        List.sorted_insertionSort (fun a b : Int => a ≥ b) (valuesList values)
    · simpa only [pySortInts, if_true] using
        List.sorted_insertionSort (fun a b : Int => a ≤ b) (valuesList values)

lemma grouping_formatted_ne (t : String) :
    ("\tGroup by " ++ t ++ "\n") ≠ "\tNo Grouping\n" := by
  intro h
  have h2 := congrArg String.data h
  simp only [String.data_append] at h2
  simp [List.cons_append] at h2

lemma ordering_formatted_ne (t : String) :
    ("\t" ++ "Ordering: " ++ t ++ "\n") ≠ "\tNo Ordering\n" := by
  intro h
  have h2 := congrArg String.data h
  simp only [String.data_append] at h2
  simp [List.cons_append] at h2

lemma splitting_formatted_ne (t : String) :
    ("\t" ++ "Splitting: " ++ t ++ "\n") ≠ "\tNo Splitting\n" := by
  intro h
  have h2 := congrArg String.data h
  simp only [String.data_append] at h2
  simp [List.cons_append] at h2

lemma neg_sampling_formatted_ne (t : String) :
    ("\t" ++ "Negative Sampling: " ++ t ++ "\n") ≠ "\tNo Negative Sampling\n" := by
  intro h
  have h2 := congrArg String.data h
  simp only [String.data_append] at h2
  simp [List.cons_append] at h2

/-- A concern line is produced without error for a well-formed spec, and
it is the "No ..." line exactly when the spec is absent or its strategy
is the string `none`. -/
lemma concernLine_ok (label noLine : String) (args : Option Dict)
    (hwf : hasStrategyKey args)
    (hne : ∀ t, ("\t" ++ label ++ t ++ "\n") ≠ noLine) :
    ∃ l, concernLine label noLine args = Except.ok l ∧
      (l = noLine ↔ (args = Option.none ∨
        ∃ d, args = some d ∧ dictLookup d "strategy" = some (Val.str "none"))) := by
  cases args with
  | none => exact ⟨noLine, rfl, by simp⟩
  | some d =>
    rcases hl : dictLookup d "strategy" with _ | v
    · rw [hasStrategyKey, hl] at hwf
      simp at hwf
    · cases v with
      | str s =>
        by_cases hs : s = "none"
        · subst hs
          refine ⟨noLine, by rw [concernLine, hl]; simp, ?_⟩
          simp [hl]
        · refine ⟨"\t" ++ label ++ reprDict d ++ "\n", by rw [concernLine, hl]; simp [hs], ?_⟩
          constructor
          · intro h
            exact absurd h (hne _)
          · rintro (h | ⟨d', hd', hlook⟩)
            · exact absurd h (by simp)
            · obtain rfl : d' = d := by injection hd' with h0; exact h0.symm
              rw [hl] at hlook
              injection hlook with hv
              injection hv with hv'
              exact absurd hv' hs
      | none =>
        refine ⟨"\t" ++ label ++ reprDict d ++ "\n", by rw [concernLine, hl], ?_⟩
        constructor
        · intro h
          exact absurd h (hne _)
        · rintro (h | ⟨d', hd', hlook⟩)
          · exact absurd h (by simp)
          · obtain rfl : d' = d := by injection hd' with h0; exact h0.symm
            rw [hl] at hlook
            exact absurd hlook (by simp)
      | bool b =>
        refine ⟨"\t" ++ label ++ reprDict d ++ "\n", by rw [concernLine, hl], ?_⟩
        constructor
        · intro h
          exact absurd h (hne _)
        · rintro (h | ⟨d', hd', hlook⟩)
          · exact absurd h (by simp)
          · obtain rfl : d' = d := by injection hd' with h0; exact h0.symm
            rw [hl] at hlook
            exact absurd hlook (by simp)
      | int n =>
        refine ⟨"\t" ++ label ++ reprDict d ++ "\n", by rw [concernLine, hl], ?_⟩
        constructor
        · intro h
          exact absurd h (hne _)
        · rintro (h | ⟨d', hd', hlook⟩)
          · exact absurd h (by simp)
          · obtain rfl : d' = d := by injection hd' with h0; exact h0.symm
            rw [hl] at hlook
            exact absurd hlook (by simp)
      | float q =>
        refine ⟨"\t" ++ label ++ reprDict d ++ "\n", by rw [concernLine, hl], ?_⟩
        constructor
        · intro h
          exact absurd h (hne _)
        · rintro (h | ⟨d', hd', hlook⟩)
          · exact absurd h (by simp)
          · obtain rfl : d' = d := by injection hd' with h0; exact h0.symm
            rw [hl] at hlook
            exact absurd hlook (by simp)
      | list l =>
        refine ⟨"\t" ++ label ++ reprDict d ++ "\n", by rw [concernLine, hl], ?_⟩
        constructor
        · intro h
          exact absurd h (hne _)
        · rintro (h | ⟨d', hd', hlook⟩)
          · exact absurd h (by simp)
          · obtain rfl : d' = d := by injection hd' with h0; exact h0.symm
            rw [hl] at hlook
            exact absurd hlook (by simp)

/-- C8: for a record whose present specs carry a `strategy` entry, the
rendering is the header followed by one line per concern in the fixed
order grouping, ordering, splitting, negative sampling, and each line is
the "No ..." form exactly when that concern's spec is absent or its
strategy is `none`; a fresh record renders the four "No ..." lines. -/
theorem rendering_layout (es : EvalSetting)
    (h2 : hasStrategyKey es.ordering_args) (h3 : hasStrategyKey es.split_args)
    (h4 : hasStrategyKey es.neg_sample_args) :
    ∃ l2 l3 l4,
      pyStr es = Except.ok
        ("Evaluation Setting:\n" ++ groupingLine es ++ l2 ++ l3 ++ l4)
      ∧ (groupingLine es = "\tNo Grouping\n" ↔ es.group_field = Option.none)
      ∧ (l2 = "\tNo Ordering\n" ↔ (es.ordering_args = Option.none ∨
          ∃ d, es.ordering_args = some d
            ∧ dictLookup d "strategy" = some (Val.str "none")))
      ∧ (l3 = "\tNo Splitting\n" ↔ (es.split_args = Option.none ∨
          ∃ d, es.split_args = some d
            ∧ dictLookup d "strategy" = some (Val.str "none")))
      ∧ (l4 = "\tNo Negative Sampling\n" ↔ (es.neg_sample_args = Option.none ∨
          ∃ d, es.neg_sample_args = some d
            ∧ dictLookup d "strategy" = some (Val.str "none")))
      ∧ pyStr esEmpty = Except.ok
          "Evaluation Setting:\n\tNo Grouping\n\tNo Ordering\n\tNo Splitting\n\tNo Negative Sampling\n" := by
  obtain ⟨l2, e2, i2⟩ := concernLine_ok "Ordering: " "\tNo Ordering\n"
    es.ordering_args h2 ordering_formatted_ne
  obtain ⟨l3, e3, i3⟩ := concernLine_ok "Splitting: " "\tNo Splitting\n"
    es.split_args h3 splitting_formatted_ne
  obtain ⟨l4, e4, i4⟩ := concernLine_ok "Negative Sampling: " "\tNo Negative Sampling\n"
    es.neg_sample_args h4 neg_sampling_formatted_ne
  refine ⟨l2, l3, l4, ?_, ?_, i2, i3, i4, rfl⟩
  · simp only [pyStr, e2, e3, e4]
    rfl
  · cases hg : es.group_field with
    | none => simp [groupingLine, hg]
    | some g =>
      simp only [groupingLine, hg]
      exact iff_of_false (grouping_formatted_ne _) (by simp)

/-- C8 witness: the fresh record is well-formed (its specs are all
absent) and the theorem instantiates at it. -/
theorem rendering_layout_witness :
    (hasStrategyKey esEmpty.ordering_args ∧ hasStrategyKey esEmpty.split_args
      ∧ hasStrategyKey esEmpty.neg_sample_args)
    ∧ (∃ l2 l3 l4,
        pyStr esEmpty = Except.ok
          ("Evaluation Setting:\n" ++ groupingLine esEmpty ++ l2 ++ l3 ++ l4)
        ∧ (groupingLine esEmpty = "\tNo Grouping\n" ↔ esEmpty.group_field = Option.none)
        ∧ (l2 = "\tNo Ordering\n" ↔ (esEmpty.ordering_args = Option.none ∨
            ∃ d, esEmpty.ordering_args = some d
              ∧ dictLookup d "strategy" = some (Val.str "none")))
        ∧ (l3 = "\tNo Splitting\n" ↔ (esEmpty.split_args = Option.none ∨
            ∃ d, esEmpty.split_args = some d
              ∧ dictLookup d "strategy" = some (Val.str "none")))
        ∧ (l4 = "\tNo Negative Sampling\n" ↔ (esEmpty.neg_sample_args = Option.none ∨
            ∃ d, esEmpty.neg_sample_args = some d
              ∧ dictLookup d "strategy" = some (Val.str "none")))
        ∧ pyStr esEmpty = Except.ok
            "Evaluation Setting:\n\tNo Grouping\n\tNo Ordering\n\tNo Splitting\n\tNo Negative Sampling\n") :=
  ⟨⟨trivial, trivial, trivial⟩, rendering_layout esEmpty trivial trivial trivial⟩

end EvalSettingModel
